import Mathlib

/-!
Verification of the 112energie client-side code base.

Shallow embedding of the component loader, cookie consent, energy
calculators, ripple effect and particle animations found in:
  src/00_Development/Frontend/112energie-critical/src/scripts/components.js
  src/00_Development/Frontend/112energie-critical/src/scripts/buttons.js
  src/00_Development/Frontend/112energie-critical/src/scripts/112energie.js
  src/scripts/components.js
  src/unnamed/part_000

JS numbers are modelled as exact rationals (or reals where the code uses
trigonometry); DOM structures are modelled as explicit records and lists;
the browser environment (network, HTML parsing of fragments, script load
success) is a parameter record.
-/

namespace Spec2Proof

/- ==================== String utilities ====================
   Model of JS String.prototype.includes, used by CookieConsent.hasConsent
   (document.cookie.includes(...)) and to state properties of generated
   HTML markup. -/

/-- Does the second list start with the first list? -/
def leadsWith : List Char → List Char → Bool
  | [], _ => true
  | _ :: _, [] => false
  | a :: as, b :: bs => a == b && leadsWith as bs

/-- Does the second list contain the first list as a contiguous run? -/
def hasSubList (pat : List Char) : List Char → Bool
  | [] => pat.isEmpty
  | c :: cs => leadsWith pat (c :: cs) || hasSubList pat cs

/-- Model of JS `hay.includes(pat)`. -/
def strIncludes (hay pat : String) : Bool :=
  hasSubList pat.data hay.data

theorem leadsWith_append (pat rest : List Char) :
    leadsWith pat (pat ++ rest) = true := by
  induction pat with
  | nil => rfl
  | cons a as ih => simp [leadsWith, ih]

theorem leadsWith_mono (pat l b : List Char)
    (h : leadsWith pat l = true) : leadsWith pat (l ++ b) = true := by
  induction pat generalizing l with
  | nil => rfl
  | cons p ps ih =>
    cases l with
    | nil => simp [leadsWith] at h
    | cons c cs =>
      simp only [leadsWith, Bool.and_eq_true] at h ⊢
      exact ⟨h.1, ih cs h.2⟩

theorem hasSubList_append_left (pat a b : List Char)
    (h : hasSubList pat a = true) : hasSubList pat (a ++ b) = true := by
  induction a with
  | nil =>
    simp [hasSubList] at h
    subst h
    cases b with
    | nil => rfl
    | cons c cs => simp [hasSubList, leadsWith]
  | cons c cs ih =>
    simp only [List.cons_append, hasSubList, Bool.or_eq_true] at h ⊢
    rcases h with h | h
    · exact Or.inl (leadsWith_mono pat (c :: cs) b h)
    · exact Or.inr (ih h)

/-- A pattern occurring in the middle of a concatenation is found. -/
theorem hasSubList_middle (a pat b : List Char) :
    hasSubList pat (a ++ (pat ++ b)) = true := by
  induction a with
  | nil =>
    cases pat with
    | nil =>
      cases b with
      | nil => rfl
      | cons c cs => simp [hasSubList, leadsWith]
    | cons p ps =>
      simp only [List.nil_append, hasSubList, Bool.or_eq_true]
      exact Or.inl (leadsWith_append (p :: ps) b)
  | cons c cs ih => simp [hasSubList, ih]

theorem strIncludes_middle (a pat b : String) :
    strIncludes (a ++ pat ++ b) pat = true := by
  have : (a ++ pat ++ b).data = a.data ++ (pat.data ++ b.data) := by
    simp [String.data_append]
  simp [strIncludes, this, hasSubList_middle]

/- ==================== Component loader ====================
   From src/00_Development/Frontend/112energie-critical/src/scripts/components.js,
   class ComponentManager. -/

/-- Outcome of `fetch(componentPath)` followed by the `response.ok` check:
a 2xx response with its body text, a non-2xx status, or a rejected fetch. -/
inductive FetchOutcome where
  | ok (body : String)
  | httpError (status : Nat)
  | networkFailure (msg : String)
deriving DecidableEq

/-- A DOM container element: its id attribute and its innerHTML. -/
structure DOMElem where
  id : String
  innerHTML : String
deriving DecidableEq

/-- An element living in document.head that the loader may insert:
an external script (src), an external stylesheet link (href), or an
inline style carrying an optional data-component attribute. -/
inductive HeadElem where
  | script (src : String)
  | slink (href : String)
  | style (dataComponent : Option String)
deriving DecidableEq

/-- Mutable state of a ComponentManager plus the document head it writes to:
`loadedComponents` (a Set of component ids), `componentCache`
(a Map from path to fetched HTML text) and the head children. -/
structure CMState where
  loadedComponents : List String
  componentCache : List (String × String)
  head : List HeadElem
deriving DecidableEq

/-- Browser environment seen by the loader: the network, the scripts and
style/link elements the DOM parser finds inside an injected fragment, and
whether loading a given external script src succeeds. -/
structure CMEnv where
  net : String → FetchOutcome
  parseScripts : String → List String
  parseStyles : String → List HeadElem
  scriptOk : String → Bool

/-- `componentId` from loadComponent line 70:
path-id for containers with an id, path-random otherwise (the
Math.random() draw is the `rnd` parameter). -/
def componentId (container : DOMElem) (path rnd : String) : String :=
  path ++ "-" ++ (if container.id = "" then rnd else container.id)

/-- Map.get on the component cache. -/
def cacheLookup (cache : List (String × String)) (path : String) : Option String :=
  (cache.find? (fun e => e.1 = path)).map (fun e => e.2)

/-- showLoadingState: the spinner markup written to the container
(whitespace of the template literal normalized). -/
def loadingHTML : String :=
  "<div class=\"component-loading\"><div class=\"loading-spinner\"></div><span class=\"loading-text\">Laden...</span></div>"

/-- showErrorState: the component-error markup written to the container
(whitespace of the template literal normalized). -/
def errorHTML (message : String) : String :=
  "<div class=\"component-error\"><div class=\"error-icon\">⚠️</div><div class=\"error-message\"><strong>Component Load Error</strong><p>"
    ++ message ++ "</p></div></div>"

/-- The error.message produced by the fetch branch of loadComponent:
a thrown `Failed to load component: status` for a non-ok response, or the
rejection message of the fetch itself. -/
def failureMessage : FetchOutcome → String
  | .ok _ => ""
  | .httpError status => "Failed to load component: " ++ toString status
  | .networkFailure msg => msg

/-- Is a script with this src already in the head
(document.querySelector on script[src=...])? -/
def scriptSrcPresent (head : List HeadElem) (src : String) : Bool :=
  head.any (fun e => match e with | .script s => s = src | _ => false)

/-- loadExternalScript lines 157-172: skip when a script with the same src
exists, otherwise append a new script element to document.head. -/
def loadExternalScript (src : String) (head : List HeadElem) : List HeadElem :=
  if scriptSrcPresent head src then head else head ++ [.script src]

/-- initializeComponentScripts lines 143-155 for the external scripts of a
fragment: load each in order; a script element is appended before its load
resolves, and a failing load rejects the surrounding promise (second
component of the result is false). Inline scripts are executed and removed
again (executeInlineScript), leaving no lasting head element. -/
def runScripts (ok : String → Bool) : List String → List HeadElem → List HeadElem × Bool
  | [], head => (head, true)
  | src :: rest, head =>
    if scriptSrcPresent head src then runScripts ok rest head
    else
      let head1 := head ++ [HeadElem.script src]
      if ok src then runScripts ok rest head1 else (head1, false)

/-- Is a stylesheet link with this href already in the head? -/
def linkHrefPresent (head : List HeadElem) (href : String) : Bool :=
  head.any (fun e => match e with | .slink h => h = href | _ => false)

/-- JS string interpolation of `styleElement.dataset.component`: a missing
attribute reads as undefined and interpolates to the text undefined. -/
def jsAttr : Option String → String
  | none => "undefined"
  | some s => s

/-- Does the head contain an inline style whose data-component attribute
equals the query string (attribute selector style[data-component=...])? -/
def styleDCPresent (head : List HeadElem) (q : String) : Bool :=
  head.any (fun e => match e with | .style (some s) => s = q | _ => false)

/-- One step of initializeComponentStyles lines 185-202: links are skipped
when one with the same href exists, inline styles are skipped when one with
the same data-component attribute value exists; otherwise a clone is
appended to document.head. The querySelectorAll in line 186 only returns
style and link elements, so a script input leaves the head unchanged. -/
def insertStyleElem (head : List HeadElem) (e : HeadElem) : List HeadElem :=
  match e with
  | .slink href => if linkHrefPresent head href then head else head ++ [e]
  | .style dc => if styleDCPresent head (jsAttr dc) then head else head ++ [e]
  | .script _ => head

/-- initializeComponentStyles over all style/link elements of a fragment. -/
def initializeComponentStyles (es : List HeadElem) (head : List HeadElem) : List HeadElem :=
  es.foldl insertStyleElem head

/-- Result of one loadComponent call: the manager state afterwards, the
container afterwards, how many network fetches were performed, and whether
the componentLoaded event was dispatched. -/
structure LoadResult where
  state : CMState
  container : DOMElem
  fetches : Nat
  dispatched : Bool
deriving DecidableEq

/-- Success path of loadComponent lines 97-114 once HTML text is available
(from cache or network, `fetches` counts the latter): inject the HTML into
the container, run scripts and styles, mark the component id loaded and
dispatch componentLoaded. A failing external script rejects into the catch
block, which shows the error state (the Event rejection value has no
message property, so the interpolated message is undefined); the id is then
not marked loaded and no event is dispatched. -/
def loadFetched (env : CMEnv) (st : CMState) (cache1 : List (String × String))
    (c1 : DOMElem) (cid html : String) (fetches : Nat) : LoadResult :=
  let c2 : DOMElem := { c1 with innerHTML := html }
  let sr := runScripts env.scriptOk (env.parseScripts html) st.head
  if sr.2 then
    let head2 := initializeComponentStyles (env.parseStyles html) sr.1
    ⟨⟨cid :: st.loadedComponents, cache1, head2⟩, c2, fetches, true⟩
  else
    ⟨⟨st.loadedComponents, cache1, sr.1⟩, { c2 with innerHTML := errorHTML "undefined" }, fetches, false⟩

/-- loadComponent lines 67-120. Already-loaded component ids return at once
with nothing changed. Otherwise the loading state is shown (options default
showLoading true), the cache is consulted, a miss fetches the path and a
non-ok or failed fetch throws into the catch block, which shows the error
state in the container. The whole body is wrapped in try/catch, so the
call always terminates normally with a LoadResult. -/
def loadComponent (env : CMEnv) (st : CMState) (container : DOMElem)
    (path rnd : String) (showLoading : Bool := true) : LoadResult :=
  let cid := componentId container path rnd
  if cid ∈ st.loadedComponents then
    ⟨st, container, 0, false⟩
  else
    let c1 := if showLoading then { container with innerHTML := loadingHTML } else container
    match cacheLookup st.componentCache path with
    | some html => loadFetched env st st.componentCache c1 cid html 0
    | none =>
      match env.net path with
      | .ok body => loadFetched env st ((path, body) :: st.componentCache) c1 cid body 1
      | outcome => ⟨st, { c1 with innerHTML := errorHTML (failureMessage outcome) }, 1, false⟩

/-- The public API `load(selector, componentPath)` lines 381-388: querying
the document for the selector; a missing container throws
`Container not found`, otherwise loadComponent runs. -/
def cmLoad (doc : String → Option DOMElem) (env : CMEnv) (st : CMState)
    (selector path rnd : String) : Except String LoadResult :=
  match doc selector with
  | none => .error ("Container not found: " ++ selector)
  | some c => .ok (loadComponent env st c path rnd)

/-- Constructor state: empty Set, empty Map (head passed separately). -/
def initCMState (head : List HeadElem) : CMState := ⟨[], [], head⟩

/- ==================== Loader lemmas ==================== -/

theorem runScripts_ok (ok : String → Bool) (l : List String) (head : List HeadElem)
    (h : ∀ s ∈ l, ok s = true) : (runScripts ok l head).2 = true := by
  induction l generalizing head with
  | nil => rfl
  | cons src rest ih =>
    unfold runScripts
    by_cases hp : scriptSrcPresent head src = true
    · rw [if_pos hp]
      exact ih _ (fun s hs => h s (List.mem_cons_of_mem _ hs))
    · rw [if_neg hp, if_pos (h src (List.mem_cons_self _ _))]
      exact ih _ (fun s hs => h s (List.mem_cons_of_mem _ hs))

theorem loadComponent_skip (env : CMEnv) (st : CMState) (c : DOMElem)
    (path rnd : String) (sl : Bool)
    (hmem : componentId c path rnd ∈ st.loadedComponents) :
    loadComponent env st c path rnd sl = ⟨st, c, 0, false⟩ := by
  unfold loadComponent
  rw [if_pos hmem]

theorem loadComponent_fresh_ok (env : CMEnv) (st : CMState) (c : DOMElem)
    (path rnd html : String)
    (hfresh : componentId c path rnd ∉ st.loadedComponents)
    (hmiss : cacheLookup st.componentCache path = none)
    (hnet : env.net path = FetchOutcome.ok html)
    (hok : (runScripts env.scriptOk (env.parseScripts html) st.head).2 = true) :
    loadComponent env st c path rnd =
      ⟨⟨componentId c path rnd :: st.loadedComponents,
        (path, html) :: st.componentCache,
        initializeComponentStyles (env.parseStyles html)
          (runScripts env.scriptOk (env.parseScripts html) st.head).1⟩,
       ⟨c.id, html⟩, 1, true⟩ := by
  unfold loadComponent
  rw [if_neg hfresh]
  simp only [hmiss, hnet]
  unfold loadFetched
  rw [if_pos hok]
  simp

theorem loadComponent_fresh_cached (env : CMEnv) (st : CMState) (c : DOMElem)
    (path rnd html : String)
    (hfresh : componentId c path rnd ∉ st.loadedComponents)
    (hhit : cacheLookup st.componentCache path = some html)
    (hok : (runScripts env.scriptOk (env.parseScripts html) st.head).2 = true) :
    loadComponent env st c path rnd =
      ⟨⟨componentId c path rnd :: st.loadedComponents,
        st.componentCache,
        initializeComponentStyles (env.parseStyles html)
          (runScripts env.scriptOk (env.parseScripts html) st.head).1⟩,
       ⟨c.id, html⟩, 0, true⟩ := by
  unfold loadComponent
  rw [if_neg hfresh]
  simp only [hhit]
  unfold loadFetched
  rw [if_pos hok]
  simp

theorem loadComponent_fetch_fail (env : CMEnv) (st : CMState) (c : DOMElem)
    (path rnd : String)
    (hfresh : componentId c path rnd ∉ st.loadedComponents)
    (hmiss : cacheLookup st.componentCache path = none)
    (hfail : ∀ b, env.net path ≠ FetchOutcome.ok b) :
    loadComponent env st c path rnd =
      ⟨st, ⟨c.id, errorHTML (failureMessage (env.net path))⟩, 1, false⟩ := by
  unfold loadComponent
  rw [if_neg hfresh]
  simp only [hmiss]
  cases h : env.net path with
  | ok b => exact absurd h (hfail b)
  | httpError s => rfl
  | networkFailure m => rfl

theorem strIncludes_left (a b pat : String) (h : strIncludes a pat = true) :
    strIncludes (a ++ b) pat = true := by
  simp only [strIncludes, String.data_append] at *
  exact hasSubList_append_left _ _ _ h

/-- The showErrorState markup always carries the component-error class. -/
theorem errorHTML_has_class (m : String) :
    strIncludes (errorHTML m) "component-error" = true := by
  have h1 : strIncludes "<div class=\"component-error\"><div class=\"error-icon\">⚠️</div><div class=\"error-message\"><strong>Component Load Error</strong><p>" "component-error" = true := by
    decide
  exact strIncludes_left _ _ _ (strIncludes_left _ _ _ h1)

theorem loadComponent_container_id (env : CMEnv) (st : CMState) (c : DOMElem)
    (path rnd : String) (sl : Bool) :
    (loadComponent env st c path rnd sl).container.id = c.id := by
  unfold loadComponent loadFetched
  by_cases hmem : componentId c path rnd ∈ st.loadedComponents
  · rw [if_pos hmem]
  · rw [if_neg hmem]
    cases hc : cacheLookup st.componentCache path with
    | some html =>
      simp only
      split <;> cases sl <;> rfl
    | none =>
      cases hn : env.net path with
      | ok b =>
        simp only
        split <;> cases sl <;> rfl
      | httpError s => cases sl <;> rfl
      | networkFailure m => cases sl <;> rfl

theorem loadComponent_dispatched_mem (env : CMEnv) (st : CMState) (c : DOMElem)
    (path rnd : String) (sl : Bool)
    (h : (loadComponent env st c path rnd sl).dispatched = true) :
    componentId c path rnd ∈ (loadComponent env st c path rnd sl).state.loadedComponents := by
  unfold loadComponent loadFetched at *
  by_cases hmem : componentId c path rnd ∈ st.loadedComponents
  · rw [if_pos hmem] at h
    exact absurd h (by simp)
  · rw [if_neg hmem] at h ⊢
    cases hc : cacheLookup st.componentCache path with
    | some html =>
      simp only [hc] at h ⊢
      split at h
      · simp_all [List.mem_cons_self]
      · exact absurd h (by simp_all)
    | none =>
      cases hn : env.net path with
      | ok b =>
        simp only [hc, hn] at h ⊢
        split at h
        · simp_all [List.mem_cons_self]
        · exact absurd h (by simp_all)
      | httpError s =>
        simp only [hc, hn] at h
        exact absurd h (by simp)
      | networkFailure m =>
        simp only [hc, hn] at h
        exact absurd h (by simp)

/- ==================== Claim theorems: loader ==================== -/

/-- C1: loading the same fragment path twice, into targets with distinct
component identities, performs exactly one network fetch of the path; the
second load reuses the cached text (zero fetches) and both loads inject the
fragment HTML into their containers, ending with the path cached. -/
theorem claim_C1_two_loads_one_fetch
    (env : CMEnv) (path html rnd1 rnd2 : String) (c1 c2 : DOMElem)
    (head0 : List HeadElem)
    (hnet : env.net path = FetchOutcome.ok html)
    (hscripts : ∀ s ∈ env.parseScripts html, env.scriptOk s = true)
    (hids : componentId c2 path rnd2 ≠ componentId c1 path rnd1) :
    (loadComponent env (initCMState head0) c1 path rnd1).fetches = 1 ∧
    (loadComponent env (loadComponent env (initCMState head0) c1 path rnd1).state
        c2 path rnd2).fetches = 0 ∧
    (loadComponent env (initCMState head0) c1 path rnd1).container.innerHTML = html ∧
    (loadComponent env (loadComponent env (initCMState head0) c1 path rnd1).state
        c2 path rnd2).container.innerHTML = html ∧
    cacheLookup (loadComponent env (loadComponent env (initCMState head0) c1 path rnd1).state
        c2 path rnd2).state.componentCache path = some html ∧
    (loadComponent env (initCMState head0) c1 path rnd1).dispatched = true ∧
    (loadComponent env (loadComponent env (initCMState head0) c1 path rnd1).state
        c2 path rnd2).dispatched = true := by
  have hok1 : (runScripts env.scriptOk (env.parseScripts html) (initCMState head0).head).2 = true :=
    runScripts_ok _ _ _ hscripts
  have h1 := loadComponent_fresh_ok env (initCMState head0) c1 path rnd1 html
    (by simp [initCMState]) (by simp [initCMState, cacheLookup]) hnet hok1
  rw [h1]
  dsimp only [initCMState]
  have hok2 : (runScripts env.scriptOk (env.parseScripts html)
      (initializeComponentStyles (env.parseStyles html)
        (runScripts env.scriptOk (env.parseScripts html) head0).1)).2 = true :=
    runScripts_ok _ _ _ hscripts
  have h2 := loadComponent_fresh_cached env
    ⟨[componentId c1 path rnd1], [(path, html)],
      initializeComponentStyles (env.parseStyles html)
        (runScripts env.scriptOk (env.parseScripts html) head0).1⟩
    c2 path rnd2 html (by simpa using hids) (by simp [cacheLookup]) hok2
  rw [h2]
  refine ⟨rfl, rfl, rfl, rfl, ?_, rfl, rfl⟩
  simp [cacheLookup]

/-- C2: when the fetch of a fragment path returns a non-2xx status or fails,
loadComponent terminates normally (it is a total function into LoadResult,
the try/catch swallowing the throw) and the container afterwards holds the
inline component-error block; nothing is cached or marked loaded and no
componentLoaded event fires. -/
theorem claim_C2_fetch_failure_shows_error
    (env : CMEnv) (st : CMState) (c : DOMElem) (path rnd : String)
    (hfresh : componentId c path rnd ∉ st.loadedComponents)
    (hmiss : cacheLookup st.componentCache path = none)
    (hfail : ∀ b, env.net path ≠ FetchOutcome.ok b) :
    (loadComponent env st c path rnd).container.innerHTML
        = errorHTML (failureMessage (env.net path)) ∧
    strIncludes (loadComponent env st c path rnd).container.innerHTML
        "component-error" = true ∧
    (loadComponent env st c path rnd).state = st ∧
    (loadComponent env st c path rnd).dispatched = false ∧
    (loadComponent env st c path rnd).fetches = 1 := by
  rw [loadComponent_fetch_fail env st c path rnd hfresh hmiss hfail]
  exact ⟨rfl, errorHTML_has_class _, rfl, rfl, rfl⟩

/-- C10: for a container with a non-empty id, a second loadComponent call
with the same container and path after a successful first load is a complete
no-op: no fetch, no state change, the container is returned untouched, and
no componentLoaded event is dispatched. -/
theorem claim_C10_second_load_noop
    (env : CMEnv) (st : CMState) (c : DOMElem) (path rnd rnd2 : String)
    (hid : c.id ≠ "")
    (hdisp : (loadComponent env st c path rnd).dispatched = true) :
    loadComponent env (loadComponent env st c path rnd).state
        (loadComponent env st c path rnd).container path rnd2 =
      ⟨(loadComponent env st c path rnd).state,
       (loadComponent env st c path rnd).container, 0, false⟩ := by
  apply loadComponent_skip
  have hidpres := loadComponent_container_id env st c path rnd true
  have hmem := loadComponent_dispatched_mem env st c path rnd true hdisp
  have hsame : componentId (loadComponent env st c path rnd).container path rnd2
      = componentId c path rnd := by
    unfold componentId
    rw [hidpres, if_neg hid, if_neg hid]
  rw [hsame]
  exact hmem

/-- A concrete browser environment for witnesses: every path fetches a
fixed fragment with no scripts or styles in it. -/
def demoEnv : CMEnv :=
  ⟨fun _ => FetchOutcome.ok "<p>header</p>", fun _ => [], fun _ => [], fun _ => true⟩

/-- A concrete environment whose network always answers 404. -/
def demo404Env : CMEnv :=
  ⟨fun _ => FetchOutcome.httpError 404, fun _ => [], fun _ => [], fun _ => true⟩

theorem claim_C1_witness :
    (demoEnv.net "/components/header.html" = FetchOutcome.ok "<p>header</p>") ∧
    (∀ s ∈ demoEnv.parseScripts "<p>header</p>", demoEnv.scriptOk s = true) ∧
    (componentId ⟨"footer-c", ""⟩ "/components/header.html" "r2"
      ≠ componentId ⟨"header-c", ""⟩ "/components/header.html" "r1") ∧
    ((loadComponent demoEnv (initCMState []) ⟨"header-c", ""⟩ "/components/header.html" "r1").fetches = 1 ∧
    (loadComponent demoEnv (loadComponent demoEnv (initCMState []) ⟨"header-c", ""⟩ "/components/header.html" "r1").state
        ⟨"footer-c", ""⟩ "/components/header.html" "r2").fetches = 0 ∧
    (loadComponent demoEnv (initCMState []) ⟨"header-c", ""⟩ "/components/header.html" "r1").container.innerHTML = "<p>header</p>" ∧
    (loadComponent demoEnv (loadComponent demoEnv (initCMState []) ⟨"header-c", ""⟩ "/components/header.html" "r1").state
        ⟨"footer-c", ""⟩ "/components/header.html" "r2").container.innerHTML = "<p>header</p>" ∧
    cacheLookup (loadComponent demoEnv (loadComponent demoEnv (initCMState []) ⟨"header-c", ""⟩ "/components/header.html" "r1").state
        ⟨"footer-c", ""⟩ "/components/header.html" "r2").state.componentCache "/components/header.html" = some "<p>header</p>" ∧
    (loadComponent demoEnv (initCMState []) ⟨"header-c", ""⟩ "/components/header.html" "r1").dispatched = true ∧
    (loadComponent demoEnv (loadComponent demoEnv (initCMState []) ⟨"header-c", ""⟩ "/components/header.html" "r1").state
        ⟨"footer-c", ""⟩ "/components/header.html" "r2").dispatched = true) :=
  ⟨rfl, by simp [demoEnv], by decide,
    claim_C1_two_loads_one_fetch demoEnv "/components/header.html" "<p>header</p>" "r1" "r2"
      ⟨"header-c", ""⟩ ⟨"footer-c", ""⟩ [] rfl (by simp [demoEnv]) (by decide)⟩

theorem claim_C2_witness :
    (componentId ⟨"header-c", ""⟩ "/components/header.html" "r1"
        ∉ (initCMState []).loadedComponents) ∧
    (cacheLookup (initCMState []).componentCache "/components/header.html" = none) ∧
    (∀ b, demo404Env.net "/components/header.html" ≠ FetchOutcome.ok b) ∧
    ((loadComponent demo404Env (initCMState []) ⟨"header-c", ""⟩ "/components/header.html" "r1").container.innerHTML
        = errorHTML (failureMessage (demo404Env.net "/components/header.html")) ∧
    strIncludes (loadComponent demo404Env (initCMState []) ⟨"header-c", ""⟩ "/components/header.html" "r1").container.innerHTML
        "component-error" = true ∧
    (loadComponent demo404Env (initCMState []) ⟨"header-c", ""⟩ "/components/header.html" "r1").state = initCMState [] ∧
    (loadComponent demo404Env (initCMState []) ⟨"header-c", ""⟩ "/components/header.html" "r1").dispatched = false ∧
    (loadComponent demo404Env (initCMState []) ⟨"header-c", ""⟩ "/components/header.html" "r1").fetches = 1) :=
  ⟨by simp [initCMState], rfl, fun b h => by simp [demo404Env] at h,
    claim_C2_fetch_failure_shows_error demo404Env (initCMState []) ⟨"header-c", ""⟩
      "/components/header.html" "r1" (by simp [initCMState]) rfl
      (fun b h => by simp [demo404Env] at h)⟩

theorem claim_C10_witness :
    ((⟨"header-c", ""⟩ : DOMElem).id ≠ "") ∧
    ((loadComponent demoEnv (initCMState []) ⟨"header-c", ""⟩ "/c/h.html" "r1").dispatched = true) ∧
    (loadComponent demoEnv (loadComponent demoEnv (initCMState []) ⟨"header-c", ""⟩ "/c/h.html" "r1").state
        (loadComponent demoEnv (initCMState []) ⟨"header-c", ""⟩ "/c/h.html" "r1").container "/c/h.html" "r2" =
      ⟨(loadComponent demoEnv (initCMState []) ⟨"header-c", ""⟩ "/c/h.html" "r1").state,
       (loadComponent demoEnv (initCMState []) ⟨"header-c", ""⟩ "/c/h.html" "r1").container, 0, false⟩) :=
  ⟨by decide, by decide,
    claim_C10_second_load_noop demoEnv (initCMState []) ⟨"header-c", ""⟩ "/c/h.html" "r1" "r2"
      (by decide) (by decide)⟩

/- ==================== Head insertion idempotence (C8) ==================== -/

/-- Head elements whose duplicate check can ever match their own clone:
scripts (matched by src), links (matched by href) and inline styles that
carry a data-component attribute. An inline style without one is checked
against the literal text undefined, which its clone never carries. -/
def dedupable : HeadElem → Bool
  | .style none => false
  | _ => true

/-- The duplicate check of insertStyleElem already succeeds for this
element on this head (scripts are out of scope for the style pass). -/
def satisfiedIn (head : List HeadElem) : HeadElem → Bool
  | .slink href => linkHrefPresent head href
  | .style dc => styleDCPresent head (jsAttr dc)
  | .script _ => true

theorem satisfiedIn_append (head l : List HeadElem) (e : HeadElem)
    (h : satisfiedIn head e = true) : satisfiedIn (head ++ l) e = true := by
  cases e with
  | script s => rfl
  | slink href =>
    simp only [satisfiedIn, linkHrefPresent, List.any_append, Bool.or_eq_true] at h ⊢
    exact Or.inl h
  | style dc =>
    simp only [satisfiedIn, styleDCPresent, List.any_append, Bool.or_eq_true] at h ⊢
    exact Or.inl h

theorem satisfiedIn_insert (head : List HeadElem) (e e1 : HeadElem)
    (h : satisfiedIn head e = true) :
    satisfiedIn (insertStyleElem head e1) e = true := by
  cases e1 with
  | script s => exact h
  | slink href =>
    simp only [insertStyleElem]
    split
    · exact h
    · exact satisfiedIn_append _ _ _ h
  | style dc =>
    simp only [insertStyleElem]
    split
    · exact h
    · exact satisfiedIn_append _ _ _ h

theorem insert_satisfies (head : List HeadElem) (e : HeadElem)
    (hd : dedupable e = true) :
    satisfiedIn (insertStyleElem head e) e = true := by
  cases e with
  | script s => rfl
  | slink href =>
    simp only [insertStyleElem]
    by_cases hp : linkHrefPresent head href = true
    · rw [if_pos hp]; exact hp
    · rw [if_neg hp]
      simp [satisfiedIn, linkHrefPresent, List.any_append]
  | style dc =>
    cases dc with
    | none => simp [dedupable] at hd
    | some s =>
      simp only [insertStyleElem]
      by_cases hp : styleDCPresent head (jsAttr (some s)) = true
      · rw [if_pos hp]; exact hp
      · rw [if_neg hp]
        simp [satisfiedIn, styleDCPresent, List.any_append, jsAttr]

theorem insert_of_satisfied (head : List HeadElem) (e : HeadElem)
    (h : satisfiedIn head e = true) : insertStyleElem head e = head := by
  cases e with
  | script s => rfl
  | slink href => exact if_pos h
  | style dc => exact if_pos h

theorem styles_preserve_satisfied (es : List HeadElem) (head : List HeadElem)
    (e : HeadElem) (h : satisfiedIn head e = true) :
    satisfiedIn (initializeComponentStyles es head) e = true := by
  induction es generalizing head with
  | nil => exact h
  | cons a as ih => exact ih _ (satisfiedIn_insert _ _ _ h)

theorem styles_noop_of_satisfied (es : List HeadElem) (head : List HeadElem)
    (h : ∀ e ∈ es, satisfiedIn head e = true) :
    initializeComponentStyles es head = head := by
  induction es with
  | nil => rfl
  | cons a as ih =>
    unfold initializeComponentStyles at *
    simp only [List.foldl_cons]
    rw [insert_of_satisfied _ _ (h a (List.mem_cons_self _ _))]
    exact ih (fun e he => h e (List.mem_cons_of_mem _ he))

theorem styles_all_satisfied (es : List HeadElem) (head : List HeadElem)
    (hd : ∀ e ∈ es, dedupable e = true) :
    ∀ e ∈ es, satisfiedIn (initializeComponentStyles es head) e = true := by
  induction es generalizing head with
  | nil => intro e he; cases he
  | cons a as ih =>
    intro e he
    unfold initializeComponentStyles
    simp only [List.foldl_cons]
    rcases List.mem_cons.mp he with rfl | he2
    · exact styles_preserve_satisfied as _ _
        (insert_satisfies head e (hd e (List.mem_cons_self _ _)))
    · exact ih (insertStyleElem head a) (fun x hx => hd x (List.mem_cons_of_mem _ hx)) e he2

/-- C8 counterexample: a fragment carrying one inline style with no
data-component attribute. The duplicate check looks for
style[data-component="undefined"], which the appended clone never matches,
so a second load appends a second copy: the head ends with a duplicate. -/
theorem claim_C8_counterexample :
    initializeComponentStyles [HeadElem.style none]
        (initializeComponentStyles [HeadElem.style none] [])
      = [HeadElem.style none, HeadElem.style none] ∧
    (initializeComponentStyles [HeadElem.style none]
        (initializeComponentStyles [HeadElem.style none] [])).length = 2 := by
  constructor <;> rfl

/-- C8 (amended): head insertion is idempotent for scripts keyed by src and
stylesheets keyed by href, and for inline styles that carry a
data-component attribute; repeated loads add no duplicates of those. (An
inline style without the attribute is re-appended on every load, as the
counterexample shows.) -/
theorem claim_C8_amended_idempotent :
    (∀ (src : String) (head : List HeadElem),
      loadExternalScript src (loadExternalScript src head) = loadExternalScript src head) ∧
    (∀ (es : List HeadElem) (head : List HeadElem), (∀ e ∈ es, dedupable e = true) →
      initializeComponentStyles es (initializeComponentStyles es head)
        = initializeComponentStyles es head) := by
  constructor
  · intro src head
    by_cases hp : scriptSrcPresent head src = true
    · unfold loadExternalScript
      simp [hp]
    · unfold loadExternalScript
      rw [if_neg hp]
      have hnew : scriptSrcPresent (head ++ [HeadElem.script src]) src = true := by
        simp [scriptSrcPresent, List.any_append]
      rw [if_pos hnew]
  · intro es head hd
    exact styles_noop_of_satisfied es _ (styles_all_satisfied es head hd)

theorem claim_C8_witness :
    (∀ e ∈ [HeadElem.slink "/styles/components.css", HeadElem.style (some "hero")],
      dedupable e = true) ∧
    (loadExternalScript "/scripts/app.js" (loadExternalScript "/scripts/app.js" [])
        = loadExternalScript "/scripts/app.js" [] ∧
    initializeComponentStyles [HeadElem.slink "/styles/components.css", HeadElem.style (some "hero")]
        (initializeComponentStyles [HeadElem.slink "/styles/components.css", HeadElem.style (some "hero")] [])
      = initializeComponentStyles [HeadElem.slink "/styles/components.css", HeadElem.style (some "hero")] []) :=
  ⟨by decide,
    claim_C8_amended_idempotent.1 "/scripts/app.js" [],
    claim_C8_amended_idempotent.2 [HeadElem.slink "/styles/components.css", HeadElem.style (some "hero")] [] (by decide)⟩

/- ==================== Cookie consent (C6) ====================
   From class CookieConsent, components.js lines 1300-1368. -/

/-- this.cookieName. -/
def consentCookieName : String := "112energie_consent"

/-- this.cookieExpiry in days. -/
def consentCookieExpiry : Nat := 365

/-- hasConsent(): document.cookie.includes(cookieName + '=true'). -/
def hasConsent (cookie : String) : Bool :=
  strIncludes cookie (consentCookieName ++ "=true")

/-- The CookieConsent constructor shows the banner exactly when hasConsent
is false: `if (!this.hasConsent()) this.showBanner();`. -/
def cookieConsentBannerShown (cookie : String) : Bool :=
  ! hasConsent cookie

/-- setCookie(value): the string assigned to document.cookie, with the
browser-formatted expiry date (~365 days out) passed in as `expires`. -/
def setCookieString (value : Bool) (expires : String) : String :=
  consentCookieName ++ "=" ++ (if value then "true" else "false")
    ++ ";expires=" ++ expires ++ ";path=/;SameSite=Strict"

/-- C6: once the consent cookie holds the accepted state, the constructor
does not show the banner. Concretely: accept() writes a cookie string that
satisfies hasConsent, and on any later page load whose document.cookie
contains the accepted pair anywhere (the browser keeps it there for the
whole 365-day expiry window), hasConsent is true and the constructor shows
no banner. -/
theorem claim_C6_no_banner_after_accept :
    (∀ expires : String, hasConsent (setCookieString true expires) = true) ∧
    (∀ before after : String,
      hasConsent (before ++ "112energie_consent=true" ++ after) = true ∧
      cookieConsentBannerShown (before ++ "112energie_consent=true" ++ after) = false) := by
  constructor
  · intro expires
    have h1 : strIncludes "112energie_consent=true;expires="
        ("112energie_consent" ++ "=true") = true := by decide
    have h2 := strIncludes_left "112energie_consent=true;expires=" expires _ h1
    have h3 := strIncludes_left ("112energie_consent=true;expires=" ++ expires)
      ";path=/;SameSite=Strict" _ h2
    exact h3
  · intro before after
    have h1 : hasConsent (before ++ "112energie_consent=true" ++ after) = true := by
      show strIncludes _ (consentCookieName ++ "=true") = true
      have : consentCookieName ++ "=true" = "112energie_consent=true" := by rfl
      rw [this]
      exact strIncludes_middle _ _ _
    exact ⟨h1, by simp [cookieConsentBannerShown, h1]⟩

/- ==================== Energy calculators (C4) ==================== -/

/-- JS Math.round: round half away from zero for positive halves; on the
values produced here it is floor of x + 1/2. -/
def jsRound (q : ℚ) : ℤ := ⌊q + 1 / 2⌋

/- Calculator one, from the critical bundle components.js lines 818-873
(class EnergyCalculator). Rates: electricity 0.45 EUR per kWh, gas 1.50
EUR per cubic metre, 15 percent solar discount. -/

/-- this.consumption lookup table keyed by household size 1-5; any other
size reads undefined in JS (the calculation would be NaN), modelled None. -/
def consumption1 : Nat → Option (ℚ × ℚ)
  | 1 => some (1800, 800)
  | 2 => some (2800, 1200)
  | 3 => some (3500, 1400)
  | 4 => some (4200, 1600)
  | 5 => some (5000, 1800)
  | _ => none

/-- this.homeTypeMultiplier lookup table. -/
def homeTypeMultiplier1 : String → Option ℚ
  | "apartment" => some 0.8
  | "row-house" => some 1.0
  | "corner-house" => some 1.1
  | "detached" => some 1.3
  | _ => none

/-- Result of calculate(): rounded power, gas and monthly figures. -/
structure CalcResult1 where
  power : ℤ
  gas : ℤ
  monthly : ℤ
deriving DecidableEq

/-- calculate() lines 842-873: consumption scaled by the home-type
multiplier, electricity at 0.45 and gas at 1.50, a 15 percent solar
discount on electricity, yearly total divided by 12. -/
def calculate1 (householdSize : Nat) (homeType : String) (hasSolar : Bool) :
    Option CalcResult1 :=
  match consumption1 householdSize, homeTypeMultiplier1 homeType with
  | some base, some multiplier =>
    let powerConsumption := base.1 * multiplier
    let gasConsumption := base.2 * multiplier
    let electricityCost0 := powerConsumption * 0.45
    let gasCost := gasConsumption * 1.50
    let electricityCost :=
      if hasSolar then electricityCost0 * (1 - 0.15) else electricityCost0
    let yearlyTotal := electricityCost + gasCost
    let monthlyAmount := yearlyTotal / 12
    some ⟨jsRound powerConsumption, jsRound gasConsumption, jsRound monthlyAmount⟩
  | _, _ => none

/- Calculator two, from src/scripts/components.js lines 1540-1601 (the
enhanced EnergyCalculator). -/

/-- gatherData() lines 1591-1601: the form values, with the defaults
2 / row-house / 2800 / 1200 / false / false / false used when fields are
absent. -/
structure CalcData where
  householdSize : Nat
  homeType : String
  electricityUsage : ℚ
  gasUsage : ℚ
  greenEnergy : Bool
  solarPanels : Bool
  smartMeter : Bool
deriving DecidableEq

/-- this.results of calculate(); co2Reduction is kept as the exact rational
value that the source formats with toFixed(1) for display. -/
structure CalcResult2 where
  monthlyAmount : ℤ
  yearlyAmount : ℤ
  savingsAmount : ℤ
  electricityCost : ℤ
  gasCost : ℤ
  networkCost : ℤ
  aiDiscount : ℤ
  co2Reduction : ℚ
deriving DecidableEq

/-- calculate() lines 1540-1589: green tariff 0.24 vs 0.28, gas 1.45,
fixed 456 network costs, 70 percent solar reduction, 8 percent smart-meter
discount, savings against a market average, CO2 bookkeeping. -/
def calculate2 (data : CalcData) : CalcResult2 :=
  let electricityRate : ℚ := if data.greenEnergy then 0.24 else 0.28
  let gasRate : ℚ := 1.45
  let networkCosts : ℚ := 456
  let electricityCost0 := data.electricityUsage * electricityRate
  let gasCost := data.gasUsage * gasRate
  let electricityCost :=
    if data.solarPanels then electricityCost0 * 0.3 else electricityCost0
  let aiDiscount := if data.smartMeter then (electricityCost + gasCost) * 0.08 else 0
  let totalYearly := electricityCost + gasCost + networkCosts - aiDiscount
  let totalMonthly := totalYearly / 12
  let marketAverage := data.electricityUsage * 0.32 + data.gasUsage * 1.65 + 520
  let savings := marketAverage - totalYearly
  let co2Electricity := if data.greenEnergy then 0 else data.electricityUsage * 0.392
  let co2Gas := data.gasUsage * 1.784
  let co2Total := (co2Electricity + co2Gas) / 1000
  let co2Reduction := if data.greenEnergy then co2Total else co2Total * 0.8
  ⟨jsRound totalMonthly, jsRound totalYearly, jsRound (max 0 savings),
   jsRound electricityCost, jsRound gasCost, 456, jsRound aiDiscount, co2Reduction⟩

/-- The fixed input of the claim for calculator two: household size 2,
row-house, no green energy, no solar, with gatherData defaults for the
remaining fields. -/
def fixedCalcData : CalcData := ⟨2, "row-house", 2800, 1200, false, false, false⟩

/-- C4: both energy-cost calculators are deterministic pure functions of
their input tuples — identical inputs give identical results — and on the
fixed input (household size 2, row-house, no green energy, no solar) they
reproducibly compute 255 and 248 EUR monthly respectively (the two
implementations use different rate constants, so their values differ from
each other but each is stable). -/
theorem claim_C4_calculator_deterministic
    (h1 h2 : Nat) (t1 t2 : String) (s1 s2 : Bool) (d1 d2 : CalcData)
    (hh : h1 = h2) (ht : t1 = t2) (hs : s1 = s2) (hd : d1 = d2) :
    calculate1 h1 t1 s1 = calculate1 h2 t2 s2 ∧
    calculate2 d1 = calculate2 d2 ∧
    calculate1 2 "row-house" false = some ⟨2800, 1200, 255⟩ ∧
    (calculate2 fixedCalcData).monthlyAmount = 248 := by
  subst hh; subst ht; subst hs; subst hd
  have hc : consumption1 2 = some (2800, 1200) := rfl
  have hm : homeTypeMultiplier1 "row-house" = some 1.0 := rfl
  refine ⟨rfl, rfl, ?_, ?_⟩
  · simp only [calculate1, hc, hm]
    norm_num [jsRound]
  · simp only [calculate2, fixedCalcData]
    norm_num [jsRound]

theorem claim_C4_witness :
    ((2 : Nat) = 2 ∧ "row-house" = "row-house" ∧ false = false ∧
      fixedCalcData = fixedCalcData) ∧
    (calculate1 2 "row-house" false = calculate1 2 "row-house" false ∧
    calculate2 fixedCalcData = calculate2 fixedCalcData ∧
    calculate1 2 "row-house" false = some ⟨2800, 1200, 255⟩ ∧
    (calculate2 fixedCalcData).monthlyAmount = 248) :=
  ⟨⟨rfl, rfl, rfl, rfl⟩,
    claim_C4_calculator_deterministic 2 2 "row-house" "row-house" false false
      fixedCalcData fixedCalcData rfl rfl rfl rfl⟩

/- ==================== Ripple effect (C5) ====================
   Two click handlers create ripple nodes: ButtonController.createRipple
   (buttons.js lines 38-68, removes an existing ripple before appending)
   and ButtonSystem.initRipples (src/unnamed/part_000 lines 235-263, only
   appends). Both schedule removal via setTimeout(..., 600). The event loop
   is modelled with explicit timestamps: before any event at time t, all
   timers due at or before t have fired, each removing its node if it is
   still attached. -/

/-- One ripple span element: an identity and its creation time (ms). -/
structure RippleNode where
  id : Nat
  created : Nat
deriving DecidableEq

/-- Ripple world state: the spans attached to the button, the outstanding
setTimeout timers as (fire time, node id) pairs, the log of every node ever
created, and a fresh-id counter. -/
structure RippleState where
  attached : List RippleNode
  pending : List (Nat × Nat)
  createdLog : List RippleNode
  nextId : Nat
deriving DecidableEq

/-- Fire every timer due at or before time t: each such timer removes its
node when still attached (`if (ripple.parentNode) ripple.remove()`), and
leaves the timer queue. -/
def fireDue (t : Nat) (st : RippleState) : RippleState :=
  { st with
    attached := st.attached.filter
      (fun n => ! st.pending.any (fun pr => pr.2 == n.id && decide (pr.1 ≤ t))),
    pending := st.pending.filter (fun pr => decide (t < pr.1)) }

/-- A click at time t in the part_000 variant (initRipples): append one new
ripple span and schedule its removal 600ms out. -/
def clickBS (t : Nat) (st : RippleState) : RippleState :=
  let s := fireDue t st
  { attached := s.attached ++ [⟨s.nextId, t⟩],
    pending := s.pending ++ [(t + 600, s.nextId)],
    createdLog := s.createdLog ++ [⟨s.nextId, t⟩],
    nextId := s.nextId + 1 }

/-- A click at time t in the buttons.js variant (createRipple): first remove
the existing ripple found by querySelector (the oldest attached span, if
any), then append one new span and schedule its removal 600ms out. -/
def clickBC (t : Nat) (st : RippleState) : RippleState :=
  let s := fireDue t st
  { attached := s.attached.tail ++ [⟨s.nextId, t⟩],
    pending := s.pending ++ [(t + 600, s.nextId)],
    createdLog := s.createdLog ++ [⟨s.nextId, t⟩],
    nextId := s.nextId + 1 }

/-- Process a timeline of click timestamps. -/
def runRipples (click : Nat → RippleState → RippleState) (ts : List Nat)
    (st : RippleState) : RippleState :=
  ts.foldl (fun s t => click t s) st

/-- Button with no ripples yet. -/
def initRippleState : RippleState := ⟨[], [], [], 0⟩

/-- Observing the button at time T first lets every due timer fire. -/
def observeAt (T : Nat) (st : RippleState) : RippleState := fireDue T st

/-- Every attached ripple still has its 600ms removal timer outstanding
(setTimeout never loses a scheduled callback). -/
def PendingCover (st : RippleState) : Prop :=
  ∀ n ∈ st.attached, (n.created + 600, n.id) ∈ st.pending

theorem fireDue_pendingCover (t : Nat) (st : RippleState)
    (h : PendingCover st) : PendingCover (fireDue t st) := by
  intro n hn
  simp only [fireDue, List.mem_filter] at hn
  have hmem := h n hn.1
  simp only [fireDue, List.mem_filter]
  refine ⟨hmem, ?_⟩
  by_contra hlt
  simp only [decide_eq_true_eq, Nat.not_lt] at hlt
  have : st.pending.any (fun pr => pr.2 == n.id && decide (pr.1 ≤ t)) = true := by
    refine List.any_eq_true.mpr ⟨(n.created + 600, n.id), hmem, ?_⟩
    simp [hlt]
  simp [this] at hn

theorem clickBS_pendingCover (t : Nat) (st : RippleState)
    (h : PendingCover st) : PendingCover (clickBS t st) := by
  have hf := fireDue_pendingCover t st h
  intro n hn
  simp only [clickBS, List.mem_append, List.mem_singleton] at hn
  rcases hn with hn | rfl
  · exact List.mem_append_left _ (hf n hn)
  · exact List.mem_append_right _ (by simp)

theorem clickBC_pendingCover (t : Nat) (st : RippleState)
    (h : PendingCover st) : PendingCover (clickBC t st) := by
  have hf := fireDue_pendingCover t st h
  intro n hn
  simp only [clickBC, List.mem_append, List.mem_singleton] at hn
  rcases hn with hn | rfl
  · exact List.mem_append_left _ (hf n (List.mem_of_mem_tail hn))
  · exact List.mem_append_right _ (by simp)

theorem runRipples_pendingCover (click : Nat → RippleState → RippleState)
    (hclick : ∀ t st, PendingCover st → PendingCover (click t st))
    (ts : List Nat) (st : RippleState) (h : PendingCover st) :
    PendingCover (runRipples click ts st) := by
  induction ts generalizing st with
  | nil => exact h
  | cons t rest ih => exact ih _ (hclick t st h)

/-- After the due timers fire at observation time T, every still-attached
ripple was created less than 600ms ago. -/
theorem observe_deadline (T : Nat) (st : RippleState) (h : PendingCover st) :
    ∀ n ∈ (observeAt T st).attached, T < n.created + 600 := by
  intro n hn
  simp only [observeAt, fireDue, List.mem_filter] at hn
  by_contra hge
  have hmem := h n hn.1
  have : st.pending.any (fun pr => pr.2 == n.id && decide (pr.1 ≤ T)) = true := by
    refine List.any_eq_true.mpr ⟨(n.created + 600, n.id), hmem, ?_⟩
    simp only [beq_self_eq_true, Bool.true_and, decide_eq_true_eq]
    omega
  simp [this] at hn

/-- The attached spans are always a sublist of the creation log. -/
def AttachedSub (st : RippleState) : Prop :=
  st.attached.Sublist st.createdLog

theorem fireDue_attachedSub (t : Nat) (st : RippleState)
    (h : AttachedSub st) : AttachedSub (fireDue t st) :=
  (List.filter_sublist _).trans h

theorem clickBS_attachedSub (t : Nat) (st : RippleState)
    (h : AttachedSub st) : AttachedSub (clickBS t st) :=
  List.Sublist.append (fireDue_attachedSub t st h) (List.Sublist.refl _)

theorem clickBC_attachedSub (t : Nat) (st : RippleState)
    (h : AttachedSub st) : AttachedSub (clickBC t st) :=
  List.Sublist.append ((List.tail_sublist _).trans (fireDue_attachedSub t st h))
    (List.Sublist.refl _)

theorem runRipples_attachedSub (click : Nat → RippleState → RippleState)
    (hclick : ∀ t st, AttachedSub st → AttachedSub (click t st))
    (ts : List Nat) (st : RippleState) (h : AttachedSub st) :
    AttachedSub (runRipples click ts st) := by
  induction ts generalizing st with
  | nil => exact h
  | cons t rest ih => exact ih _ (hclick t st h)

/-- Each click creates exactly one node, in either variant: the log of
creation times is exactly the click timeline. -/
theorem runRipples_log (click : Nat → RippleState → RippleState)
    (hclick : ∀ t st, (click t st).createdLog = st.createdLog ++ [⟨st.nextId, t⟩])
    (ts : List Nat) (st : RippleState) :
    (runRipples click ts st).createdLog.map RippleNode.created
      = st.createdLog.map RippleNode.created ++ ts := by
  induction ts generalizing st with
  | nil => simp [runRipples]
  | cons t rest ih =>
    show (runRipples click rest (click t st)).createdLog.map RippleNode.created = _
    rw [ih, hclick]
    simp

theorem clickBS_log (t : Nat) (st : RippleState) :
    (clickBS t st).createdLog = st.createdLog ++ [⟨st.nextId, t⟩] := rfl

theorem clickBC_log (t : Nat) (st : RippleState) :
    (clickBC t st).createdLog = st.createdLog ++ [⟨st.nextId, t⟩] := rfl

theorem tail_append_singleton_len_le_one (l : List RippleNode) (n : RippleNode)
    (h : l.length ≤ 1) : (l.tail ++ [n]).length ≤ 1 := by
  cases l with
  | nil => simp
  | cons a as =>
    simp only [List.length_cons] at h
    simp only [List.tail_cons, List.length_append, List.length_singleton]
    omega

/-- buttons.js keeps at most one ripple attached at any moment. -/
theorem clickBC_len_le_one (t : Nat) (st : RippleState)
    (h : st.attached.length ≤ 1) : (clickBC t st).attached.length ≤ 1 := by
  apply tail_append_singleton_len_le_one
  exact le_trans (List.length_filter_le _ _) h

theorem runRipples_BC_len (ts : List Nat) (st : RippleState)
    (h : st.attached.length ≤ 1) :
    (runRipples clickBC ts st).attached.length ≤ 1 := by
  induction ts generalizing st with
  | nil => exact h
  | cons t rest ih => exact ih _ (clickBC_len_le_one t st h)

/-- C5: per click exactly one transient ripple node is created (the log of
creation times equals the click timeline, in both handler variants); any
node still attached when the button is observed at time T was created less
than 600ms before T, so every node is removed within 600ms of its creation;
and the attached count never grows without bound: the part_000 variant
keeps at most the number of clicks whose 600ms window covers T, and the
buttons.js variant keeps at most one ripple at any time, no matter how
rapid the clicks. -/
theorem claim_C5_ripple_transient (ts : List Nat) (T : Nat) :
    ((runRipples clickBC ts initRippleState).createdLog.map RippleNode.created = ts ∧
     (runRipples clickBS ts initRippleState).createdLog.map RippleNode.created = ts) ∧
    ((∀ n ∈ (observeAt T (runRipples clickBC ts initRippleState)).attached,
        T < n.created + 600) ∧
     (∀ n ∈ (observeAt T (runRipples clickBS ts initRippleState)).attached,
        T < n.created + 600)) ∧
    (observeAt T (runRipples clickBS ts initRippleState)).attached.length
        ≤ ts.countP (fun t => decide (T < t + 600)) ∧
    (observeAt T (runRipples clickBC ts initRippleState)).attached.length ≤ 1 := by
  have hcovBC : PendingCover (runRipples clickBC ts initRippleState) :=
    runRipples_pendingCover clickBC clickBC_pendingCover ts initRippleState
      (by intro n hn; cases hn)
  have hcovBS : PendingCover (runRipples clickBS ts initRippleState) :=
    runRipples_pendingCover clickBS clickBS_pendingCover ts initRippleState
      (by intro n hn; cases hn)
  have hlogBC := runRipples_log clickBC clickBC_log ts initRippleState
  have hlogBS := runRipples_log clickBS clickBS_log ts initRippleState
  simp only [initRippleState, List.map_nil, List.nil_append] at hlogBC hlogBS
  refine ⟨⟨hlogBC, hlogBS⟩,
    ⟨observe_deadline T _ hcovBC, observe_deadline T _ hcovBS⟩, ?_, ?_⟩
  · -- window bound for the append-only variant
    have hsub : AttachedSub (runRipples clickBS ts initRippleState) :=
      runRipples_attachedSub clickBS clickBS_attachedSub ts initRippleState (by simp [AttachedSub, initRippleState])
    have hdead := observe_deadline T _ hcovBS
    set final := runRipples clickBS ts initRippleState with hfinal
    have hobs_sub : (observeAt T final).attached.Sublist final.createdLog :=
      (List.filter_sublist _).trans hsub
    have hall : ∀ n ∈ (observeAt T final).attached,
        (fun n : RippleNode => decide (T < n.created + 600)) n = true := by
      intro n hn
      simp [hdead n hn]
    have hfeq : (observeAt T final).attached.filter
        (fun n : RippleNode => decide (T < n.created + 600)) = (observeAt T final).attached :=
      List.filter_eq_self.mpr hall
    have hfsub := List.Sublist.filter
      (fun n : RippleNode => decide (T < n.created + 600)) hobs_sub
    rw [hfeq] at hfsub
    have hlen := hfsub.length_le
    rw [← List.countP_eq_length_filter] at hlen
    rw [← hlogBS, List.countP_map]
    simpa using hlen
  · exact le_trans (List.length_filter_le _ _)
      (runRipples_BC_len ts initRippleState (by simp [initRippleState]))

/- ==================== Ambient particles (part_000) ====================
   ButtonSystem.initParticles, src/unnamed/part_000 lines 88-129: random
   walk with wrap-around at the canvas edges. -/

/-- One ambient particle as created in initParticles. -/
structure AmbientParticle where
  x : ℚ
  y : ℚ
  vx : ℚ
  vy : ℚ
  size : ℚ
  opacity : ℚ
deriving DecidableEq

/-- One frame of animateParticles: advance by the velocity, then wrap:
a coordinate below 0 jumps to the far edge, one beyond the edge jumps
to 0. -/
def ambientStep (w h : ℚ) (p : AmbientParticle) : AmbientParticle :=
  let x1 := p.x + p.vx
  let y1 := p.y + p.vy
  let x2 := if x1 < 0 then w else if x1 > w then 0 else x1
  let y2 := if y1 < 0 then h else if y1 > h then 0 else y1
  { p with x := x2, y := y2 }

/-- n frames of the ambient animation loop. -/
def runAmbient (w h : ℚ) : Nat → AmbientParticle → AmbientParticle
  | 0, p => p
  | n + 1, p => runAmbient w h n (ambientStep w h p)

/-- After any single wrap step the particle sits inside the canvas,
whatever its previous position or velocity. -/
theorem ambientStep_bounds (w h : ℚ) (p : AmbientParticle)
    (hw : 0 ≤ w) (hh : 0 ≤ h) :
    0 ≤ (ambientStep w h p).x ∧ (ambientStep w h p).x ≤ w ∧
    0 ≤ (ambientStep w h p).y ∧ (ambientStep w h p).y ≤ h := by
  unfold ambientStep
  dsimp only
  refine ⟨?_, ?_, ?_, ?_⟩ <;> split_ifs <;>
    first
    | exact hw
    | exact hh
    | linarith

theorem runAmbient_preserve (w h : ℚ) (m : Nat) (p : AmbientParticle)
    (hw : 0 ≤ w) (hh : 0 ≤ h)
    (hp : 0 ≤ p.x ∧ p.x ≤ w ∧ 0 ≤ p.y ∧ p.y ≤ h) :
    0 ≤ (runAmbient w h m p).x ∧ (runAmbient w h m p).x ≤ w ∧
    0 ≤ (runAmbient w h m p).y ∧ (runAmbient w h m p).y ≤ h := by
  induction m generalizing p with
  | zero => exact hp
  | succ k ih => exact ih _ (ambientStep_bounds w h p hw hh)

/-- From the first frame on, ambient particles are confined to the canvas. -/
theorem runAmbient_bounds (w h : ℚ) (n : Nat) (p : AmbientParticle)
    (hw : 0 ≤ w) (hh : 0 ≤ h) (hn : 1 ≤ n) :
    0 ≤ (runAmbient w h n p).x ∧ (runAmbient w h n p).x ≤ w ∧
    0 ≤ (runAmbient w h n p).y ∧ (runAmbient w h n p).y ≤ h := by
  obtain ⟨m, rfl⟩ : ∃ m, n = m + 1 := ⟨n - 1, by omega⟩
  exact runAmbient_preserve w h m _ hw hh (ambientStep_bounds w h p hw hh)

/- ==================== DOM particle system (112energie.js) ====================
   EnergyApp.animateParticles, lines 311-340: drift upward, reset to below
   the container when leaving at the top (with a fresh random x), invert
   the horizontal velocity when outside the horizontal bounds. -/

/-- One hero-section particle. -/
structure DomParticle where
  x : ℚ
  y : ℚ
  vx : ℚ
  vy : ℚ
deriving DecidableEq

/-- One frame of animateParticles; r is the Math.random() draw used when
the particle resets at the top edge. -/
def domStep (w h r : ℚ) (p : DomParticle) : DomParticle :=
  let y1 := p.y + p.vy
  let x1 := p.x + p.vx
  let x2 := if y1 < -50 then r * w else x1
  let y2 := if y1 < -50 then h + 50 else y1
  let vx2 := if x2 < 0 ∨ x2 > w then -p.vx else p.vx
  ⟨x2, y2, vx2, p.vy⟩

/-- The animation loop over a stream of per-frame random draws. -/
def runDom (w h : ℚ) (rs : List ℚ) (p : DomParticle) : DomParticle :=
  rs.foldl (fun q r => domStep w h r q) p

/-- Inductive invariant of the DOM particle system for a container of size
w x h, a horizontal speed magnitude v and the constant vertical velocity
vy0: the velocity only ever flips sign, the particle stays within the
container extended by a margin of v horizontally and by the fixed 50/100
margins vertically, and whenever it is outside the horizontal bounds the
velocity points back inward. -/
def DomInv (w h v vy0 : ℚ) (p : DomParticle) : Prop :=
  (p.vx = v ∨ p.vx = -v) ∧ p.vy = vy0 ∧
  (-v ≤ p.x ∧ p.x ≤ w + v) ∧
  (w < p.x → p.vx ≤ 0) ∧ (p.x < 0 → 0 ≤ p.vx) ∧
  (-50 ≤ p.y ∧ p.y ≤ h + 100)

theorem domStep_inv (w h v vy0 r : ℚ) (p : DomParticle)
    (hv : 0 ≤ v) (hvw : v ≤ w) (hh : 0 ≤ h) (hvy : vy0 ≤ 0)
    (hr0 : 0 ≤ r) (hr1 : r ≤ 1)
    (hp : DomInv w h v vy0 p) : DomInv w h v vy0 (domStep w h r p) := by
  obtain ⟨hvx, hvyp, ⟨hxl, hxu⟩, himp1, himp2, hyl, hyu⟩ := hp
  have hw : 0 ≤ w := hv.trans hvw
  unfold domStep DomInv
  dsimp only
  by_cases hy : p.y + p.vy < -50
  · -- reset branch: x jumps to r * w inside the container, y to h + 50
    simp only [if_pos hy]
    have hx0 : 0 ≤ r * w := mul_nonneg hr0 hw
    have hxw : r * w ≤ w := by nlinarith
    have hnoflip : ¬(r * w < 0 ∨ r * w > w) := by
      push_neg
      exact ⟨hx0, hxw⟩
    simp only [if_neg hnoflip]
    refine ⟨hvx, hvyp, ⟨by linarith, by linarith⟩, ?_, ?_, by linarith, by linarith⟩
    · intro hcon; linarith
    · intro hcon; linarith
  · simp only [if_neg hy]
    have hy1l : -50 ≤ p.y + p.vy := by linarith [not_lt.mp hy]
    have hy1u : p.y + p.vy ≤ h + 100 := by
      have hvyc : p.vy = vy0 := hvyp
      linarith
    by_cases hflip : p.x + p.vx < 0 ∨ p.x + p.vx > w
    · simp only [if_pos hflip]
      rcases hflip with hneg | hpos
      · -- left overshoot: moving left at speed v from inside [0, v)
        have hvxv : p.vx = -v := by
          rcases hvx with hvv | hvm
          · exfalso; rw [hvv] at hneg; linarith
          · exact hvm
        have hxnn : 0 ≤ p.x := by
          by_contra hxlt
          push_neg at hxlt
          have h2 := himp2 hxlt
          rw [hvxv] at h2
          linarith
        refine ⟨Or.inl (by rw [hvxv]; ring), hvyp, ⟨?_, ?_⟩, ?_, ?_, hy1l, hy1u⟩
        · rw [hvxv]; linarith
        · linarith
        · intro hcon; linarith
        · intro hcon; rw [hvxv]; linarith
      · -- right overshoot: moving right at speed v from inside (w - v, w]
        have hvxv : p.vx = v := by
          rcases hvx with hvv | hvm
          · exact hvv
          · exfalso; rw [hvm] at hpos; linarith
        have hxlew : p.x ≤ w := by
          by_contra hxgt
          push_neg at hxgt
          have h1 := himp1 hxgt
          rw [hvxv] at h1
          have hv0 : v = 0 := le_antisymm h1 hv
          rw [hvxv, hv0] at hpos
          rw [hv0] at hxu
          linarith
        refine ⟨Or.inr (by rw [hvxv]), hvyp, ⟨?_, ?_⟩, ?_, ?_, hy1l, hy1u⟩
        · linarith
        · rw [hvxv] at hpos ⊢; linarith
        · intro hcon; rw [hvxv]; linarith
        · intro hcon; linarith
    · simp only [if_neg hflip]
      push_neg at hflip
      refine ⟨hvx, hvyp, ⟨by linarith [hflip.1], by linarith [hflip.2]⟩, ?_, ?_, hy1l, hy1u⟩
      · intro hcon; linarith [hflip.2]
      · intro hcon; linarith [hflip.1]

theorem runDom_inv (w h v vy0 : ℚ) (rs : List ℚ) (p : DomParticle)
    (hv : 0 ≤ v) (hvw : v ≤ w) (hh : 0 ≤ h) (hvy : vy0 ≤ 0)
    (hrs : ∀ r ∈ rs, 0 ≤ r ∧ r ≤ 1)
    (hp : DomInv w h v vy0 p) : DomInv w h v vy0 (runDom w h rs p) := by
  induction rs generalizing p with
  | nil => exact hp
  | cons r rest ih =>
    exact ih _ (fun s hs => hrs s (List.mem_cons_of_mem _ hs))
      (domStep_inv w h v vy0 r p hv hvw hh hvy
        (hrs r (List.mem_cons_self _ _)).1 (hrs r (List.mem_cons_self _ _)).2 hp)

/- ==================== Wave particles (src/scripts/components.js) ====================
   Class ParticleWave, lines 1264-1475: sinusoidal wave motion with a
   pointer repulsion inside a fixed radius and relaxation back to the
   resting x position. JS floats are modelled as reals. -/

/-- this.waveFrequency. -/
def waveFrequency : ℝ := 0.008

/-- this.waveAmplitude. -/
def waveAmplitude : ℝ := 80

/-- this.waveSpeed, added to this.time every animation frame. -/
def waveSpeed : ℝ := 0.015

/-- this.mouseRadius. -/
def mouseRadius : ℝ := 120

/-- One wave particle as created by createParticles. -/
structure WaveParticle where
  x : ℝ
  y : ℝ
  baseY : ℝ
  size : ℝ
  speed : ℝ
  offset : ℝ
  originalX : ℝ

/-- Math.atan2(y, x), the argument of the complex number x + y i. -/
noncomputable def atan2 (y x : ℝ) : ℝ := Complex.arg ⟨x, y⟩

/-- The base wave position of particle idx at the given time:
baseY + sin(index * waveFrequency + time) * waveAmplitude. -/
noncomputable def waveY (time : ℝ) (idx : ℕ) (p : WaveParticle) : ℝ :=
  p.baseY + Real.sin (idx * waveFrequency + time) * waveAmplitude

/-- Math.sqrt(dx*dx + dy*dy) for the pointer at (mouseX, mouseY) and the
particle at (x, y1). -/
noncomputable def ptrDistance (mouseX mouseY x y1 : ℝ) : ℝ :=
  Real.sqrt ((mouseX - x) * (mouseX - x) + (mouseY - y1) * (mouseY - y1))

open Classical in
/-- The pointer-interaction displacement of updateParticles lines
1376-1387: zero when the pointer reads falsy (0) or the particle is outside
the mouse radius; otherwise the force (1 - distance/mouseRadius) * 40
applied against the angle atan2(dy, dx), halved on x. -/
noncomputable def pushVector (mouseX mouseY x y1 : ℝ) : ℝ × ℝ :=
  if mouseX ≠ 0 ∧ mouseY ≠ 0 then
    let dx := mouseX - x
    let dy := mouseY - y1
    let distance := ptrDistance mouseX mouseY x y1
    if distance < mouseRadius then
      let force := (1 - distance / mouseRadius) * 40
      let angle := atan2 dy dx
      (-(Real.cos angle * force * 0.5), -(Real.sin angle * force))
    else (0, 0)
  else (0, 0)

/-- updateParticles lines 1370-1394 for one particle: set y on the wave,
apply the pointer push, relax x toward originalX by five percent of the
gap, add the subtle floating sine on y. -/
noncomputable def updateWaveParticle (mouseX mouseY time : ℝ) (idx : ℕ)
    (p : WaveParticle) : WaveParticle :=
  let y1 := waveY time idx p
  let push := pushVector mouseX mouseY p.x y1
  let x2 := p.x + push.1
  let y2 := y1 + push.2
  let x3 := x2 + (p.originalX - x2) * 0.05
  let y3 := y2 + Real.sin (time * p.speed + p.offset) * 1
  { p with x := x3, y := y3 }

/-- animate(): advance time by waveSpeed, then update, once per frame;
the pointer position of each frame is an arbitrary input. -/
noncomputable def runWave : List (ℝ × ℝ) → ℝ → ℕ → WaveParticle → WaveParticle
  | [], _, _, p => p
  | mv :: rest, t0, idx, p =>
      runWave rest (t0 + waveSpeed) idx
        (updateWaveParticle mv.1 mv.2 (t0 + waveSpeed) idx p)

/- Constructor, lines 1266-1285 with init/resize/createParticles: a missing
canvas returns before any field is set up, so no particles exist and no
animation starts. -/

/-- The canvas element (its size after resize()). -/
structure PWCanvas where
  width : ℝ
  height : ℝ

/-- The state a successful ParticleWave constructor builds. -/
structure ParticleWaveState where
  particles : List WaveParticle
  time : ℝ
  mouseX : ℝ
  mouseY : ℝ
  isActive : Bool

/-- createParticles lines 1298-1313: evenly spaced particles on the centre
line with random size, speed and phase (the rands stream supplies the
Math.random() draws). -/
noncomputable def createWaveParticles (numberOfParticles : ℕ) (width centerY : ℝ)
    (rands : ℕ → ℝ) : List WaveParticle :=
  let spacing := width / ((numberOfParticles : ℝ) - 1)
  (List.range numberOfParticles).map (fun (i : ℕ) =>
    ⟨(i : ℝ) * spacing, centerY, centerY,
     rands (3 * i) * 2 + 1.5,
     rands (3 * i + 1) * 0.3 + 0.3,
     rands (3 * i + 2) * Real.pi * 2,
     (i : ℝ) * spacing⟩)

open Classical in
/-- The ParticleWave constructor: `if (!this.canvas) return;` makes a
missing canvas a silent no-op; otherwise resize() sizes the canvas to the
window, createParticles fills the particle list (40 below 768px width,
else 60) and the animation starts with time 0 and the mouse at (0, 0). -/
noncomputable def particleWaveNew (canvas : Option PWCanvas)
    (innerWidth innerHeight : ℝ) (rands : ℕ → ℝ) : Option ParticleWaveState :=
  canvas.map (fun _ =>
    let centerY := innerHeight / 2
    let n : ℕ := if innerWidth < 768 then 40 else 60
    ⟨createWaveParticles n innerWidth centerY rands, 0, 0, 0, true⟩)

/- ==================== Wave particle bounds ==================== -/

theorem pushVector_bounds (mouseX mouseY x y1 : ℝ) :
    |(pushVector mouseX mouseY x y1).1| ≤ 20 ∧
    |(pushVector mouseX mouseY x y1).2| ≤ 40 := by
  unfold pushVector
  dsimp only
  split_ifs with hact hin
  · dsimp only
    simp only [mouseRadius] at hin ⊢
    set d := ptrDistance mouseX mouseY x y1 with hd
    have hd0 : 0 ≤ d := Real.sqrt_nonneg _
    have hin2 : d < 120 := by simpa [mouseRadius] using hin
    have hf0 : 0 ≤ 1 - d / 120 := by
      have : d / 120 < 1 := by linarith [div_lt_one (show (0:ℝ) < 120 by norm_num) |>.mpr hin2]
      linarith
    have hf1 : 1 - d / 120 ≤ 1 := by
      have : 0 ≤ d / 120 := div_nonneg hd0 (by norm_num)
      linarith
    set θ := atan2 (mouseY - y1) (mouseX - x) with hθ
    have hcos := Real.abs_cos_le_one θ
    have hsin := Real.abs_sin_le_one θ
    constructor
    · rw [abs_neg, abs_mul, abs_mul]
      have h40 : |(1 - d / 120) * 40| ≤ 40 := by
        rw [abs_of_nonneg (by positivity)]
        linarith
      have h05 : |(0.5 : ℝ)| = 0.5 := by norm_num
      rw [h05]
      nlinarith [abs_nonneg (Real.cos θ), abs_nonneg ((1 - d / 120) * 40)]
    · rw [abs_neg, abs_mul]
      have h40 : |(1 - d / 120) * 40| ≤ 40 := by
        rw [abs_of_nonneg (by positivity)]
        linarith
      nlinarith [abs_nonneg (Real.sin θ), abs_nonneg ((1 - d / 120) * 40)]
  · simp
  · simp

theorem updateWaveParticle_originalX (mouseX mouseY time : ℝ) (idx : ℕ)
    (p : WaveParticle) :
    (updateWaveParticle mouseX mouseY time idx p).originalX = p.originalX := rfl

theorem updateWaveParticle_baseY (mouseX mouseY time : ℝ) (idx : ℕ)
    (p : WaveParticle) :
    (updateWaveParticle mouseX mouseY time idx p).baseY = p.baseY := rfl

/-- The relaxation step: after each frame the new distance to the resting
x is 0.95 of the pushed distance. -/
theorem updateWaveParticle_x_eq (mouseX mouseY time : ℝ) (idx : ℕ)
    (p : WaveParticle) :
    (updateWaveParticle mouseX mouseY time idx p).x - p.originalX
      = 0.95 * ((p.x + (pushVector mouseX mouseY p.x (waveY time idx p)).1)
          - p.originalX) := by
  unfold updateWaveParticle
  dsimp only
  ring

theorem updateWaveParticle_x_bound (mouseX mouseY time : ℝ) (idx : ℕ)
    (p : WaveParticle) (h : |p.x - p.originalX| ≤ 380) :
    |(updateWaveParticle mouseX mouseY time idx p).x - p.originalX| ≤ 380 := by
  rw [updateWaveParticle_x_eq]
  have hp := (pushVector_bounds mouseX mouseY p.x (waveY time idx p)).1
  have htri : |(p.x + (pushVector mouseX mouseY p.x (waveY time idx p)).1)
      - p.originalX| ≤ 400 := by
    have heq : (p.x + (pushVector mouseX mouseY p.x (waveY time idx p)).1)
        - p.originalX
        = (p.x - p.originalX) + (pushVector mouseX mouseY p.x (waveY time idx p)).1 := by
      ring
    rw [heq]
    calc |(p.x - p.originalX) + (pushVector mouseX mouseY p.x (waveY time idx p)).1|
        ≤ |p.x - p.originalX| + |(pushVector mouseX mouseY p.x (waveY time idx p)).1| :=
          abs_add _ _
      _ ≤ 400 := by linarith
  rw [abs_mul, abs_of_nonneg (show (0:ℝ) ≤ 0.95 by norm_num)]
  linarith

theorem updateWaveParticle_y_bound (mouseX mouseY time : ℝ) (idx : ℕ)
    (p : WaveParticle) :
    |(updateWaveParticle mouseX mouseY time idx p).y - p.baseY| ≤ 121 := by
  have heq : (updateWaveParticle mouseX mouseY time idx p).y - p.baseY
      = Real.sin ((idx : ℝ) * waveFrequency + time) * waveAmplitude
        + (pushVector mouseX mouseY p.x (waveY time idx p)).2
        + Real.sin (time * p.speed + p.offset) * 1 := by
    unfold updateWaveParticle waveY
    dsimp only
    ring
  rw [heq]
  have h1 : |Real.sin ((idx : ℝ) * waveFrequency + time) * waveAmplitude| ≤ 80 := by
    rw [abs_mul, show |waveAmplitude| = 80 by norm_num [waveAmplitude]]
    have := Real.abs_sin_le_one ((idx : ℝ) * waveFrequency + time)
    nlinarith [abs_nonneg (Real.sin ((idx : ℝ) * waveFrequency + time))]
  have h2 := (pushVector_bounds mouseX mouseY p.x (waveY time idx p)).2
  have h3 : |Real.sin (time * p.speed + p.offset) * 1| ≤ 1 := by
    rw [mul_one]
    exact Real.abs_sin_le_one _
  calc |Real.sin ((idx : ℝ) * waveFrequency + time) * waveAmplitude
        + (pushVector mouseX mouseY p.x (waveY time idx p)).2
        + Real.sin (time * p.speed + p.offset) * 1|
      ≤ |Real.sin ((idx : ℝ) * waveFrequency + time) * waveAmplitude
        + (pushVector mouseX mouseY p.x (waveY time idx p)).2|
        + |Real.sin (time * p.speed + p.offset) * 1| := abs_add _ _
    _ ≤ |Real.sin ((idx : ℝ) * waveFrequency + time) * waveAmplitude|
        + |(pushVector mouseX mouseY p.x (waveY time idx p)).2|
        + |Real.sin (time * p.speed + p.offset) * 1| := by
          linarith [abs_add (Real.sin ((idx : ℝ) * waveFrequency + time) * waveAmplitude)
            ((pushVector mouseX mouseY p.x (waveY time idx p)).2)]
    _ ≤ 121 := by linarith

theorem runWave_originalX (inputs : List (ℝ × ℝ)) (t0 : ℝ) (idx : ℕ)
    (p : WaveParticle) :
    (runWave inputs t0 idx p).originalX = p.originalX := by
  induction inputs generalizing t0 p with
  | nil => rfl
  | cons mv rest ih => exact ih _ _

theorem runWave_baseY (inputs : List (ℝ × ℝ)) (t0 : ℝ) (idx : ℕ)
    (p : WaveParticle) :
    (runWave inputs t0 idx p).baseY = p.baseY := by
  induction inputs generalizing t0 p with
  | nil => rfl
  | cons mv rest ih => exact ih _ _

theorem runWave_x_bound (inputs : List (ℝ × ℝ)) (t0 : ℝ) (idx : ℕ)
    (p : WaveParticle) (h : |p.x - p.originalX| ≤ 380) :
    |(runWave inputs t0 idx p).x - p.originalX| ≤ 380 := by
  induction inputs generalizing t0 p with
  | nil => exact h
  | cons mv rest ih =>
    have hstep := updateWaveParticle_x_bound mv.1 mv.2 (t0 + waveSpeed) idx p h
    have := ih (t0 + waveSpeed) (updateWaveParticle mv.1 mv.2 (t0 + waveSpeed) idx p) hstep
    simpa [updateWaveParticle_originalX] using this

theorem runWave_y_bound (inputs : List (ℝ × ℝ)) (t0 : ℝ) (idx : ℕ)
    (p : WaveParticle) (hne : inputs ≠ []) :
    |(runWave inputs t0 idx p).y - p.baseY| ≤ 121 := by
  induction inputs generalizing t0 p with
  | nil => exact absurd rfl hne
  | cons mv rest ih =>
    cases rest with
    | nil =>
      show |(updateWaveParticle mv.1 mv.2 (t0 + waveSpeed) idx p).y - p.baseY| ≤ 121
      exact updateWaveParticle_y_bound mv.1 mv.2 (t0 + waveSpeed) idx p
    | cons mv2 rest2 =>
      have := ih (t0 + waveSpeed) (updateWaveParticle mv.1 mv.2 (t0 + waveSpeed) idx p)
        (by simp)
      simpa [updateWaveParticle_baseY] using this

/- ==================== Claim theorems: particles ==================== -/

/-- C3: over arbitrarily many frames with arbitrary pointer positions,
particle coordinates stay bounded by the canvas dimensions plus a fixed
margin, for each variant: wave particles (starting at rest) keep
|x - originalX| within 380 so x stays in [-380, w + 380], and y within 121
of the base line; ambient particles wrap and stay exactly inside the
canvas; DOM hero particles stay within the container extended by the
horizontal speed and the fixed 50/100 pixel margins. -/
theorem claim_C3_particles_bounded
    (inputs : List (ℝ × ℝ)) (t0 : ℝ) (idx : ℕ) (p : WaveParticle) (w : ℝ)
    (hx0 : p.x = p.originalX) (hox : 0 ≤ p.originalX) (hoxw : p.originalX ≤ w)
    (hne : inputs ≠ [])
    (wa ha : ℚ) (n : ℕ) (q : AmbientParticle)
    (hwa : 0 ≤ wa) (hha : 0 ≤ ha) (hn : 1 ≤ n)
    (wd hd vmag vy0 : ℚ) (rs : List ℚ) (dp : DomParticle)
    (hv : 0 ≤ vmag) (hvw : vmag ≤ wd) (hhd : 0 ≤ hd) (hvy : vy0 ≤ 0)
    (hrs : ∀ r ∈ rs, 0 ≤ r ∧ r ≤ 1) (hinv : DomInv wd hd vmag vy0 dp) :
    (-380 ≤ (runWave inputs t0 idx p).x ∧ (runWave inputs t0 idx p).x ≤ w + 380 ∧
     |(runWave inputs t0 idx p).y - p.baseY| ≤ 121) ∧
    (0 ≤ (runAmbient wa ha n q).x ∧ (runAmbient wa ha n q).x ≤ wa ∧
     0 ≤ (runAmbient wa ha n q).y ∧ (runAmbient wa ha n q).y ≤ ha) ∧
    (-vmag ≤ (runDom wd hd rs dp).x ∧ (runDom wd hd rs dp).x ≤ wd + vmag ∧
     -50 ≤ (runDom wd hd rs dp).y ∧ (runDom wd hd rs dp).y ≤ hd + 100) := by
  refine ⟨?_, runAmbient_bounds wa ha n q hwa hha hn, ?_⟩
  · have hx := runWave_x_bound inputs t0 idx p (by rw [hx0]; simp)
    have hy := runWave_y_bound inputs t0 idx p hne
    rw [abs_le] at hx
    exact ⟨by linarith [hx.1], by linarith [hx.2], hy⟩
  · have hfin := runDom_inv wd hd vmag vy0 rs dp hv hvw hhd hvy hrs hinv
    obtain ⟨_, _, ⟨h1, h2⟩, _, _, h3, h4⟩ := hfin
    exact ⟨h1, h2, h3, h4⟩

theorem claim_C3_witness :
    ((⟨5, 0, 0, 1, 1, 0, 5⟩ : WaveParticle).x = (⟨5, 0, 0, 1, 1, 0, 5⟩ : WaveParticle).originalX ∧
     (0 : ℝ) ≤ (⟨5, 0, 0, 1, 1, 0, 5⟩ : WaveParticle).originalX ∧
     (⟨5, 0, 0, 1, 1, 0, 5⟩ : WaveParticle).originalX ≤ (10 : ℝ) ∧
     ([((0 : ℝ), (0 : ℝ))] ≠ []) ∧
     (0 : ℚ) ≤ 300 ∧ (0 : ℚ) ≤ 200 ∧ (1 : ℕ) ≤ 1 ∧
     (0 : ℚ) ≤ 1 ∧ (1 : ℚ) ≤ 500 ∧ (0 : ℚ) ≤ 400 ∧ (-2 : ℚ) ≤ 0 ∧
     (∀ r ∈ [(1/2 : ℚ)], 0 ≤ r ∧ r ≤ 1) ∧
     DomInv 500 400 1 (-2) ⟨10, 350, 1, -2⟩) ∧
    ((-380 ≤ (runWave [(0, 0)] 0 0 ⟨5, 0, 0, 1, 1, 0, 5⟩).x ∧
      (runWave [(0, 0)] 0 0 ⟨5, 0, 0, 1, 1, 0, 5⟩).x ≤ 10 + 380 ∧
      |(runWave [(0, 0)] 0 0 ⟨5, 0, 0, 1, 1, 0, 5⟩).y
        - (⟨5, 0, 0, 1, 1, 0, 5⟩ : WaveParticle).baseY| ≤ 121) ∧
     (0 ≤ (runAmbient 300 200 1 ⟨1, 2, 1/4, -1/4, 1, 1⟩).x ∧
      (runAmbient 300 200 1 ⟨1, 2, 1/4, -1/4, 1, 1⟩).x ≤ 300 ∧
      0 ≤ (runAmbient 300 200 1 ⟨1, 2, 1/4, -1/4, 1, 1⟩).y ∧
      (runAmbient 300 200 1 ⟨1, 2, 1/4, -1/4, 1, 1⟩).y ≤ 200) ∧
     (-1 ≤ (runDom 500 400 [1/2] ⟨10, 350, 1, -2⟩).x ∧
      (runDom 500 400 [1/2] ⟨10, 350, 1, -2⟩).x ≤ 500 + 1 ∧
      -50 ≤ (runDom 500 400 [1/2] ⟨10, 350, 1, -2⟩).y ∧
      (runDom 500 400 [1/2] ⟨10, 350, 1, -2⟩).y ≤ 400 + 100)) :=
  ⟨⟨rfl, by norm_num, by norm_num, by simp, by norm_num, by norm_num, le_refl 1,
    by norm_num, by norm_num, by norm_num, by norm_num, by norm_num,
    by norm_num [DomInv]⟩,
   claim_C3_particles_bounded [(0, 0)] 0 0 ⟨5, 0, 0, 1, 1, 0, 5⟩ 10
     rfl (by norm_num) (by norm_num) (by simp)
     300 200 1 ⟨1, 2, 1/4, -1/4, 1, 1⟩ (by norm_num) (by norm_num) (le_refl 1)
     500 400 1 (-2) [1/2] ⟨10, 350, 1, -2⟩
     (by norm_num) (by norm_num) (by norm_num) (by norm_num) (by norm_num)
     (by norm_num [DomInv])⟩

/-- C7 counterexample: ComponentManager.load with a selector that matches
no container is not a no-op: it throws `Container not found` (a rejected
promise), unlike the claim's "likewise a no-op rather than an error". -/
theorem claim_C7_counterexample :
    cmLoad (fun _ => none) demoEnv (initCMState []) "#app-header"
        "components/header.html" "r"
      = Except.error "Container not found: #app-header" := rfl

/-- C7 (amended): constructing the ParticleWave effect with a missing
canvas is a silent no-op (no particles, no animation, no error), but
ComponentManager.load with a missing container is NOT a no-op: it throws
a `Container not found` error. -/
theorem claim_C7_amended_missing_target
    (iw ihh : ℝ) (rands : ℕ → ℝ)
    (doc : String → Option DOMElem) (env : CMEnv) (st : CMState)
    (sel path rnd : String) (hsel : doc sel = none) :
    particleWaveNew none iw ihh rands = none ∧
    cmLoad doc env st sel path rnd
      = Except.error ("Container not found: " ++ sel) := by
  refine ⟨rfl, ?_⟩
  unfold cmLoad
  rw [hsel]

theorem claim_C7_witness :
    ((fun _ : String => (none : Option DOMElem)) "#app-header" = none) ∧
    (particleWaveNew none 0 0 (fun _ => 0) = none ∧
     cmLoad (fun _ => none) demoEnv (initCMState []) "#app-header"
         "components/header.html" "r"
       = Except.error ("Container not found: " ++ "#app-header")) :=
  ⟨rfl, claim_C7_amended_missing_target 0 0 (fun _ => 0) (fun _ => none)
    demoEnv (initCMState []) "#app-header" "components/header.html" "r" rfl⟩

/-- C9: inside the pointer radius the displacement is proportional to
(radius - distance)/radius — it equals that scalar times a vector that
depends only on the pointer direction — and outside the radius (or with the
pointer at the falsy origin) there is no push: the particle x relaxes
toward originalX by the fixed factor 0.95 and y returns to within
waveAmplitude + 1 of the base line. -/
theorem claim_C9_pointer_interaction
    (mx my x y1 mx2 my2 t : ℝ) (idx : ℕ) (p : WaveParticle)
    (hact : mx ≠ 0 ∧ my ≠ 0)
    (hin : ptrDistance mx my x y1 < mouseRadius)
    (hout : mouseRadius ≤ ptrDistance mx2 my2 p.x (waveY t idx p)) :
    pushVector mx my x y1
      = ((mouseRadius - ptrDistance mx my x y1) / mouseRadius)
          • (-(20 * Real.cos (atan2 (my - y1) (mx - x))),
             -(40 * Real.sin (atan2 (my - y1) (mx - x)))) ∧
    pushVector mx2 my2 p.x (waveY t idx p) = (0, 0) ∧
    (updateWaveParticle mx2 my2 t idx p).x - p.originalX
        = 0.95 * (p.x - p.originalX) ∧
    |(updateWaveParticle mx2 my2 t idx p).y - p.baseY| ≤ waveAmplitude + 1 := by
  have hp0 : pushVector mx2 my2 p.x (waveY t idx p) = (0, 0) := by
    unfold pushVector
    dsimp only
    by_cases hact2 : mx2 ≠ 0 ∧ my2 ≠ 0
    · rw [if_pos hact2, if_neg (not_lt.mpr hout)]
    · rw [if_neg hact2]
  refine ⟨?_, hp0, ?_, ?_⟩
  · unfold pushVector
    dsimp only
    rw [if_pos hact, if_pos hin]
    have hr0 : (mouseRadius : ℝ) ≠ 0 := by norm_num [mouseRadius]
    have hsplit : 1 - ptrDistance mx my x y1 / mouseRadius
        = (mouseRadius - ptrDistance mx my x y1) / mouseRadius := by
      rw [sub_div, div_self hr0]
    refine Prod.ext ?_ ?_
    · show -(Real.cos (atan2 (my - y1) (mx - x))
          * ((1 - ptrDistance mx my x y1 / mouseRadius) * 40) * 0.5)
        = ((mouseRadius - ptrDistance mx my x y1) / mouseRadius)
          * (-(20 * Real.cos (atan2 (my - y1) (mx - x))))
      rw [hsplit]
      ring
    · show -(Real.sin (atan2 (my - y1) (mx - x))
          * ((1 - ptrDistance mx my x y1 / mouseRadius) * 40))
        = ((mouseRadius - ptrDistance mx my x y1) / mouseRadius)
          * (-(40 * Real.sin (atan2 (my - y1) (mx - x))))
      rw [hsplit]
      ring
  · rw [updateWaveParticle_x_eq, hp0]
    norm_num
  · have heq : (updateWaveParticle mx2 my2 t idx p).y - p.baseY
        = Real.sin ((idx : ℝ) * waveFrequency + t) * waveAmplitude
          + (pushVector mx2 my2 p.x (waveY t idx p)).2
          + Real.sin (t * p.speed + p.offset) * 1 := by
      unfold updateWaveParticle waveY
      dsimp only
      ring
    rw [heq, hp0]
    have hz : ((0, 0) : ℝ × ℝ).2 = (0 : ℝ) := rfl
    rw [hz, add_zero]
    have h1 : |Real.sin ((idx : ℝ) * waveFrequency + t) * waveAmplitude|
        ≤ waveAmplitude := by
      rw [abs_mul, show |waveAmplitude| = 80 from by norm_num [waveAmplitude],
        show waveAmplitude = 80 from rfl]
      nlinarith [Real.abs_sin_le_one ((idx : ℝ) * waveFrequency + t),
        abs_nonneg (Real.sin ((idx : ℝ) * waveFrequency + t))]
    have h3 : |Real.sin (t * p.speed + p.offset) * 1| ≤ 1 := by
      rw [mul_one]
      exact Real.abs_sin_le_one _
    calc |Real.sin ((idx : ℝ) * waveFrequency + t) * waveAmplitude
          + Real.sin (t * p.speed + p.offset) * 1|
        ≤ |Real.sin ((idx : ℝ) * waveFrequency + t) * waveAmplitude|
          + |Real.sin (t * p.speed + p.offset) * 1| := abs_add _ _
      _ ≤ waveAmplitude + 1 := by linarith

theorem claim_C9_witness :
    (((1 : ℝ) ≠ 0 ∧ (1 : ℝ) ≠ 0) ∧
     ptrDistance 1 1 1 1 < mouseRadius ∧
     mouseRadius ≤ ptrDistance 1 1 (⟨201, 0, 0, 1, 1, 0, 201⟩ : WaveParticle).x
        (waveY 0 0 ⟨201, 0, 0, 1, 1, 0, 201⟩)) ∧
    (pushVector 1 1 1 1
        = ((mouseRadius - ptrDistance 1 1 1 1) / mouseRadius)
            • (-(20 * Real.cos (atan2 (1 - 1) (1 - 1))),
               -(40 * Real.sin (atan2 (1 - 1) (1 - 1)))) ∧
     pushVector 1 1 (⟨201, 0, 0, 1, 1, 0, 201⟩ : WaveParticle).x
        (waveY 0 0 ⟨201, 0, 0, 1, 1, 0, 201⟩) = (0, 0) ∧
     (updateWaveParticle 1 1 0 0 ⟨201, 0, 0, 1, 1, 0, 201⟩).x
          - (⟨201, 0, 0, 1, 1, 0, 201⟩ : WaveParticle).originalX
        = 0.95 * ((⟨201, 0, 0, 1, 1, 0, 201⟩ : WaveParticle).x
          - (⟨201, 0, 0, 1, 1, 0, 201⟩ : WaveParticle).originalX) ∧
     |(updateWaveParticle 1 1 0 0 ⟨201, 0, 0, 1, 1, 0, 201⟩).y
          - (⟨201, 0, 0, 1, 1, 0, 201⟩ : WaveParticle).baseY| ≤ waveAmplitude + 1) := by
  have hact : (1 : ℝ) ≠ 0 ∧ (1 : ℝ) ≠ 0 := by norm_num
  have hin : ptrDistance 1 1 1 1 < mouseRadius := by
    unfold ptrDistance mouseRadius
    norm_num [Real.sqrt_zero]
  have hout : mouseRadius ≤ ptrDistance 1 1 (⟨201, 0, 0, 1, 1, 0, 201⟩ : WaveParticle).x
      (waveY 0 0 ⟨201, 0, 0, 1, 1, 0, 201⟩) := by
    have hw : waveY 0 0 (⟨201, 0, 0, 1, 1, 0, 201⟩ : WaveParticle) = 0 := by
      unfold waveY
      norm_num [Real.sin_zero]
    rw [hw]
    show mouseRadius ≤ ptrDistance 1 1 201 0
    unfold ptrDistance mouseRadius
    have harg : ((1 : ℝ) - 201) * (1 - 201) + (1 - 0) * (1 - 0) = 40001 := by norm_num
    rw [harg]
    nlinarith [Real.sq_sqrt (show (0 : ℝ) ≤ 40001 by norm_num),
      Real.sqrt_nonneg (40001 : ℝ)]
  exact ⟨⟨hact, hin, hout⟩,
    claim_C9_pointer_interaction 1 1 1 1 1 1 0 0 ⟨201, 0, 0, 1, 1, 0, 201⟩ hact hin hout⟩

end Spec2Proof
